import Mathlib

set_option maxRecDepth 8000

/-!
Shallow embedding of the telegram weather bot (`bot.py`): the forecast
aggregation pipeline `build_forecast`, the per-model series filter, the
pandas outer join on the `time` index, and the `/forecast` command handler.

Modelling conventions:
* A pandas timestamp is modelled by its `%Y-%m-%d` date rendering, its hour
  and its minute (`Timestamp`).  Measure cells are `Option ℚ` (`none` = NaN).
* The network fetch (`fetch_model`) is modelled by an oracle
  `Fetch : String → Except String (List Obs)` mapping a provider model id to
  either the parsed hourly series or the message of the raised exception.
  `lat`, `lon` and `tz` are constant for one request and are absorbed into
  the oracle; the handler still parses them, since parse failures matter.
* `DataFrame.join(·, how="outer")` on a unique `time` index is modelled by
  its documented semantics: the union of the two indexes sorted
  lexicographically, missing cells filled with NaN.  (The repository's data
  model declares `time` unique per series; theorems carry that invariant as
  a hypothesis where it matters.)
* `DataFrame.to_string(index=False)` is modelled as the header line plus
  right-aligned rows padded to the per-column maximum width; for a zero-row
  frame pandas prints the three-line summary
  `Empty DataFrame\nColumns: [...]\nIndex: []`, which is modelled verbatim.
  Numeric cell formatting is abstracted to `toString` of the rational.
-/

/-- A parsed timestamp: its `strftime("%Y-%m-%d")` rendering, hour, minute. -/
structure Timestamp where
  date : String
  hour : Nat
  minute : Nat
deriving DecidableEq, Repr

/-- Strict lexicographic comparison of character lists by code point. -/
def charsLt : List Char → List Char → Bool
  | [], [] => false
  | [], _ :: _ => true
  | _ :: _, [] => false
  | a :: as, b :: bs => if a = b then charsLt as bs else decide (a.toNat < b.toNat)

/-- Chronological order on timestamps (lexicographic on date string, hour,
minute; the `%Y-%m-%d` rendering is order-isomorphic to the calendar date). -/
def Timestamp.le (a b : Timestamp) : Prop :=
  charsLt a.date.data b.date.data = true ∨
    (a.date = b.date ∧ (a.hour < b.hour ∨ (a.hour = b.hour ∧ a.minute ≤ b.minute)))

instance : DecidableRel Timestamp.le := fun a b => by
  unfold Timestamp.le; infer_instance

/-- One row of a fetched hourly series: time plus the three measures read
from the provider response (`temperature_2m`, `precipitation`,
`wind_speed_10m`); a measure is `none` when the provider reports a gap. -/
structure Obs where
  time : Timestamp
  temp : Option ℚ
  precip : Option ℚ
  wind : Option ℚ
deriving DecidableEq, Repr

/-- The fetch oracle: provider model id ↦ parsed series or raised error. -/
abbrev Fetch := String → Except String (List Obs)

/-- The `AVAILABLE_MODELS` mapping from `bot.py`: short name ↦ provider model id. -/
def AVAILABLE_MODELS : List (String × String) :=
  [("GFS", "gfs_seamless"),
   ("ICON", "icon_seamless"),
   ("ECMWF", "ecmwf_ifs025"),
   ("JMA", "jma_seamless"),
   ("GEM", "gem_seamless"),
   ("UKMO", "ukmo_seamless"),
   ("MeteoFrance", "meteofrance_seamless"),
   ("ACCESS-G", "bom_access_global")]

/-- Lookup of `AVAILABLE_MODELS[m]`: `KeyError` when the name is absent. -/
def resolveModel (m : String) : Except String String :=
  match AVAILABLE_MODELS.lookup m with
  | some pid => Except.ok pid
  | none => Except.error ("KeyError: " ++ m)

/-- Lines 42-43 of `bot.py`: keep rows whose `%Y-%m-%d` rendering equals
`date_str`, then rows whose hour is within `[start, end]` inclusive. -/
def filterSeries (date_str : String) (start «end» : Int) (series : List Obs) : List Obs :=
  (series.filter (fun o => decide (o.time.date = date_str))).filter
    (fun o => decide (start ≤ (o.time.hour : Int)) && decide ((o.time.hour : Int) ≤ «end»))

/-- One row of the wide table: the `time` value plus the measure cells, in
the order of `AggTable.cols`. -/
structure Row where
  time : Timestamp
  cells : List (Option ℚ)
deriving DecidableEq, Repr

/-- The wide table built by `build_forecast`, after `reset_index()`: the
`time` column (inside each `Row`) followed by the named measure columns. -/
structure AggTable where
  cols : List String
  rows : List Row
deriving DecidableEq, Repr

/-- Total column count of the frame (`time` plus the measure columns). -/
def AggTable.ncols (T : AggTable) : Nat := T.cols.length + 1

/-- The `time` index of the table, in row order. -/
def AggTable.times (T : AggTable) : List Timestamp := T.rows.map Row.time

/-- Cells of the row indexed by `t`: the row's cells when `t` is present,
a row of NaNs otherwise (how the outer join fills absent keys). -/
def AggTable.cellsAt (T : AggTable) (t : Timestamp) : List (Option ℚ) :=
  match T.rows.find? (fun r => decide (r.time = t)) with
  | some r => r.cells
  | none => List.replicate T.cols.length none

/-- Lines 42-44 of `bot.py` for a single model: filter the fetched series,
set `time` as index and suffix the measure columns with `_<model>`. -/
def perModelTable (m : String) (series : List Obs) (date_str : String)
    (start «end» : Int) : AggTable :=
  { cols := ["temp_" ++ m, "precip_" ++ m, "wind_" ++ m],
    rows := (filterSeries date_str start «end» series).map
      (fun o => { time := o.time, cells := [o.temp, o.precip, o.wind] }) }

/-- Sorted deduplicated key union, the documented index of a pandas
`how="outer"` join. -/
def sortDedupKeys (ts : List Timestamp) : List Timestamp :=
  List.insertionSort Timestamp.le ts.dedup

/-- Models `l.join(r, how="outer")` on the `time` index: columns appended, rows
indexed by the sorted union of the two indexes, absent cells NaN. -/
def joinOuter (l r : AggTable) : AggTable :=
  { cols := l.cols ++ r.cols,
    rows := (sortDedupKeys (l.times ++ r.times)).map
      (fun t => { time := t, cells := l.cellsAt t ++ r.cellsAt t }) }

/-- The fetch loop of `build_forecast` (lines 39-45): resolve each model,
fetch its series, build its filtered renamed table; the first raised error
aborts the loop and propagates. -/
def fetchAll (fetch : Fetch) (date_str : String) (start «end» : Int) :
    List String → Except String (List AggTable)
  | [] => Except.ok []
  | m :: ms => do
    let pid ← resolveModel m
    let series ← fetch pid
    let rest ← fetchAll fetch date_str start «end» ms
    Except.ok (perModelTable m series date_str start «end» :: rest)

/-- The function `build_forecast` (lines 38-46): fetch and filter per model, then
`reduce(lambda l, r: l.join(r, how="outer"), dfs).reset_index()`; `reduce`
of an empty sequence raises `TypeError`. -/
def build_forecast (fetch : Fetch) (date_str : String) (start «end» : Int)
    (models : List String) : Except String AggTable := do
  let dfs ← fetchAll fetch date_str start «end» models
  match dfs with
  | [] => Except.error "reduce() of empty iterable with no initial value"
  | d :: ds => Except.ok (ds.foldl joinOuter d)

/-- Cell rendering in `to_string`: pandas prints `NaN` for a missing value;
numeric formatting is abstracted to the rational's `toString`. -/
def fmtCell : Option ℚ → String
  | none => "NaN"
  | some q => toString q

/-- Cell rendering in `to_csv`: a missing value becomes the empty string. -/
def csvCell : Option ℚ → String
  | none => ""
  | some q => toString q

/-- Two-digit zero padding for hours and minutes. -/
def pad2 (n : Nat) : String :=
  if n < 10 then "0" ++ toString n else toString n

/-- A timestamp as pandas renders it: `YYYY-MM-DD HH:MM:SS`. -/
def Timestamp.render (t : Timestamp) : String :=
  t.date ++ " " ++ pad2 t.hour ++ ":" ++ pad2 t.minute ++ ":00"

/-- Right-justify `s` in a field of width `w` (pandas column alignment). -/
def padLeft (w : Nat) (s : String) : String :=
  if s.length < w then String.mk (List.replicate (w - s.length) ' ') ++ s else s

/-- Models `fc.to_string(index=False)`: for a zero-row frame, the pandas three-line
empty summary; otherwise the header line followed by one line per row, each
column right-aligned to its maximum width. -/
def renderText (T : AggTable) : String :=
  if T.rows.isEmpty then
    "Empty DataFrame\nColumns: [" ++ String.intercalate ", " ("time" :: T.cols)
      ++ "]\nIndex: []"
  else
    let headers := "time" :: T.cols
    let rowStrs := T.rows.map (fun r => r.time.render :: r.cells.map fmtCell)
    let widths := rowStrs.foldl
      (fun ws row => List.zipWith max ws (row.map String.length))
      (headers.map String.length)
    let line := fun (row : List String) =>
      String.intercalate " " (List.zipWith padLeft widths row)
    String.intercalate "\n" ((headers :: rowStrs).map line)

/-- Models `fc.to_csv(index=False)`: comma-separated header then one line per row. -/
def toCsv (T : AggTable) : String :=
  String.intercalate "," ("time" :: T.cols) ++ "\n" ++
    String.join (T.rows.map
      (fun r => String.intercalate "," (r.time.render :: r.cells.map csvCell) ++ "\n"))

/-- Models `fc.head(n)`: the first `n` rows. -/
def headRows (n : Nat) (T : AggTable) : AggTable :=
  { T with rows := T.rows.take n }

/-- The Markdown code fence the handler wraps table text in. -/
def codeBlock (s : String) : String := "```\n" ++ s ++ "\n```"

/-- The usage message of the `/forecast` handler. -/
def usageMsg : String :=
  "Usage: /forecast <lat> <lon> <timezone> <YYYY-MM-DD> <start_hr> <end_hr> <models>"

/-- A message sent back to the chat: text reply, document (its content and
caption), or the chart photo. -/
inductive Msg where
  | text (s : String)
  | document (content : String) (caption : String)
  | photo
deriving DecidableEq, Repr

/-- Check that every character of the list is a decimal digit. -/
def allDigits (cs : List Char) : Bool := cs.all Char.isDigit

/-- Numeric value of a digit list. -/
def natOfDigits (cs : List Char) : Nat :=
  cs.foldl (fun a c => a * 10 + (c.toNat - 48)) 0

/-- ASCII whitespace as Python `str.strip()` removes it. -/
def isSpace (c : Char) : Bool :=
  c = ' ' ∨ c = '\t' ∨ c = '\n' ∨ c = '\r'

/-- Python `s.strip()`: drop whitespace from both ends. -/
def pyStrip (s : String) : String :=
  String.mk (((s.data.dropWhile isSpace).reverse.dropWhile isSpace).reverse)

/-- Helper for `splitComma`: accumulate the current (reversed) chunk. -/
def splitCommaAux : List Char → List Char → List String
  | [], acc => [String.mk acc.reverse]
  | c :: cs, acc =>
    if c = ',' then String.mk acc.reverse :: splitCommaAux cs []
    else splitCommaAux cs (c :: acc)

/-- Python `s.split(",")`: split at every comma, keeping empty chunks. -/
def splitComma (s : String) : List String := splitCommaAux s.data []

/-- Models Python `float(s)` on the literals this bot receives: optional
sign, decimal digits with at most one point, surrounding whitespace
stripped; anything else raises `ValueError` (modelled as `none`). -/
def parseFloat? (s : String) : Option ℚ :=
  let t := (pyStrip s).data
  let signed : ℚ × List Char :=
    match t with
    | '-' :: rest => (-1, rest)
    | '+' :: rest => (1, rest)
    | cs => (1, cs)
  let cs := signed.2
  let ip := cs.takeWhile (fun c => decide (c ≠ '.'))
  match cs.dropWhile (fun c => decide (c ≠ '.')) with
  | [] =>
    if ip ≠ [] ∧ allDigits ip then some (signed.1 * natOfDigits ip) else none
  | _ :: fp =>
    if (ip ≠ [] ∨ fp ≠ []) ∧ allDigits ip ∧ allDigits fp then
      some (signed.1 * ((natOfDigits ip : ℚ) + (natOfDigits fp : ℚ) / (10 ^ fp.length)))
    else none

/-- Models Python `int(s)`: optional sign then decimal digits. -/
def parseInt? (s : String) : Option Int :=
  let t := (pyStrip s).data
  let signed : Int × List Char :=
    match t with
    | '-' :: rest => (-1, rest)
    | '+' :: rest => (1, rest)
    | cs => (1, cs)
  if signed.2 ≠ [] ∧ allDigits signed.2 then
    some (signed.1 * natOfDigits signed.2)
  else none

/-- The `ValueError` message of a failed `float(s)` conversion. -/
def floatErrMsg (s : String) : String :=
  "could not convert string to float: " ++ s

/-- The `ValueError` message of a failed `int(s)` conversion. -/
def intErrMsg (s : String) : String :=
  "invalid literal for int() with base 10: " ++ s

/-- Line 80 of `bot.py`: split the model argument on commas, strip each
token, keep those present in `AVAILABLE_MODELS`. -/
def modelTokens (s : String) : List String :=
  ((splitComma s).map pyStrip).filter
    (fun m => (AVAILABLE_MODELS.lookup m).isSome)

/-- The body of the `try` block of the `/forecast` handler (lines 77-97),
after the argument-count check: parse the numeric arguments, filter the
model tokens, build the forecast and choose the reply shape.  Every
modelled failure (parse error, `KeyError`, fetch error) happens before the
first message is sent, so the handler's sends are one value. -/
def runForecast (fetch : Fetch) (args : List String) : Except String (List Msg) := do
  let a0 := args.getD 0 ""
  let a1 := args.getD 1 ""
  let date_str := args.getD 3 ""
  let _lat ← match parseFloat? a0 with
    | some v => Except.ok v
    | none => Except.error (floatErrMsg a0)
  let _lon ← match parseFloat? a1 with
    | some v => Except.ok v
    | none => Except.error (floatErrMsg a1)
  let start ← match parseInt? (args.getD 4 "") with
    | some v => Except.ok v
    | none => Except.error (intErrMsg (args.getD 4 ""))
  let «end» ← match parseInt? (args.getD 5 "") with
    | some v => Except.ok v
    | none => Except.error (intErrMsg (args.getD 5 ""))
  let models := modelTokens (args.getD 6 "")
  if models.isEmpty then
    Except.ok [Msg.text "No valid models. Use /models"]
  else do
    let fc ← build_forecast fetch date_str start «end» models
    let txt := renderText fc
    let msgs :=
      if txt.length > 3800 then
        [Msg.document (toCsv fc) "Forecast CSV",
         Msg.text (codeBlock (renderText (headRows 20 fc)))]
      else
        [Msg.text (codeBlock txt)]
    Except.ok (msgs ++ [Msg.photo])

/-- The `/forecast` handler (lines 72-99): fewer than 7 tokens yields the
usage message; any exception inside the `try` is caught at the handler
boundary and reported as `Error: <message>`. -/
def forecastHandler (fetch : Fetch) (args : List String) : List Msg :=
  if args.length < 7 then [Msg.text usageMsg]
  else
    match runForecast fetch args with
    | Except.ok msgs => msgs
    | Except.error e => [Msg.text ("Error: " ++ e)]

/-! ## Query functions over tables and series -/

/-- The three suffixed measure column names of one model. -/
def colNames (m : String) : List String :=
  ["temp_" ++ m, "precip_" ++ m, "wind_" ++ m]

/-- First observation of the series at timestamp `t`. -/
def seriesLookup (f : List Obs) (t : Timestamp) : Option Obs :=
  f.find? (fun o => decide (o.time = t))

/-- The value a measure of one model contributes at `t`: the observation's
cell when the filtered series has `t`, NaN otherwise. -/
def measureAt (sel : Obs → Option ℚ) (f : List Obs) (t : Timestamp) : Option ℚ :=
  match seriesLookup f t with
  | some o => sel o
  | none => none

/-- The named cells one model contributes at `t` in the wide table. -/
def modelAssoc (m : String) (f : List Obs) (t : Timestamp) :
    List (String × Option ℚ) :=
  match seriesLookup f t with
  | some o => [("temp_" ++ m, o.temp), ("precip_" ++ m, o.precip), ("wind_" ++ m, o.wind)]
  | none => [("temp_" ++ m, none), ("precip_" ++ m, none), ("wind_" ++ m, none)]

/-- Lookup of a column name in a named cell list. -/
def assocLookup (c : String) : List (String × Option ℚ) → Option (Option ℚ)
  | [] => none
  | (k, v) :: es => if k = c then some v else assocLookup c es

/-- The cell of column `c` in the row of `T` indexed by `t` (`none` when the
column does not exist). -/
def columnValue (T : AggTable) (c : String) (t : Timestamp) : Option (Option ℚ) :=
  assocLookup c (T.cols.zip (T.cellsAt t))

/-! ## Concrete data for witnesses -/

/-- The table of a successful build (a dummy empty table on failure). -/
def tableOf : Except String AggTable → AggTable
  | Except.ok T => T
  | Except.error _ => { cols := [], rows := [] }

/-- Sample observation inside the demo request window. -/
def obsA : Obs := { time := { date := "2025-08-19", hour := 12, minute := 0 },
                    temp := some 20, precip := some 0, wind := some 5 }

/-- Sample observation also inside the window. -/
def obsB : Obs := { time := { date := "2025-08-19", hour := 13, minute := 0 },
                    temp := some 21, precip := some 1, wind := some 6 }

/-- Sample observation on the following day (outside the window). -/
def obsC : Obs := { time := { date := "2025-08-20", hour := 12, minute := 0 },
                    temp := some 22, precip := some 2, wind := some 7 }

/-- Demo series the oracle returns for the GFS provider id. -/
def seriesGFS : List Obs := [obsA, obsB, obsC]

/-- Demo series the oracle returns for the ICON provider id. -/
def seriesICON : List Obs := [obsB, obsC]

/-- Demo oracle: GFS and ICON respond, any other provider id fails. -/
def demoFetch : Fetch := fun pid =>
  if pid = "gfs_seamless" then Except.ok seriesGFS
  else if pid = "icon_seamless" then Except.ok seriesICON
  else Except.error "HTTPError"

/-- Demo oracle differing from `demoFetch` only on provider ids no
registered model maps to. -/
def demoFetch2 : Fetch := fun pid =>
  if pid = "gfs_seamless" then Except.ok seriesGFS
  else if pid = "icon_seamless" then Except.ok seriesICON
  else Except.error "Timeout"

/-- The per-model-name series behind `demoFetch`. -/
def demoG : String → List Obs := fun m =>
  if m = "GFS" then seriesGFS else if m = "ICON" then seriesICON else []

/-- Oracle whose GFS fetch succeeds and whose every other fetch fails. -/
def failFetch : Fetch := fun pid =>
  if pid = "gfs_seamless" then Except.ok seriesGFS
  else Except.error "500 Server Error"

/-! ## String helper lemmas for the suffixed column names -/

theorem string_append_cancel {p a b : String} (h : p ++ a = p ++ b) : a = b := by
  apply String.ext
  have hd := congrArg String.data h
  simp only [String.data_append] at hd
  exact List.append_cancel_left hd

theorem temp_ne_precip (a b : String) : "temp_" ++ a ≠ "precip_" ++ b := by
  intro h
  have hd := congrArg String.data h
  simp only [String.data_append] at hd
  simp at hd

theorem temp_ne_wind (a b : String) : "temp_" ++ a ≠ "wind_" ++ b := by
  intro h
  have hd := congrArg String.data h
  simp only [String.data_append] at hd
  simp at hd

theorem precip_ne_wind (a b : String) : "precip_" ++ a ≠ "wind_" ++ b := by
  intro h
  have hd := congrArg String.data h
  simp only [String.data_append] at hd
  simp at hd

/-! ## Assoc lookup lemmas -/

theorem assocLookup_append_left {c : String} {l1 l2 : List (String × Option ℚ)}
    {v : Option ℚ} (h : assocLookup c l1 = some v) :
    assocLookup c (l1 ++ l2) = some v := by
  induction l1 with
  | nil => simp [assocLookup] at h
  | cons e es ih =>
    obtain ⟨k, w⟩ := e
    by_cases hk : k = c
    · simp only [assocLookup, if_pos hk] at h ⊢
      exact h
    · simp only [assocLookup, if_neg hk] at h ⊢
      exact ih h

theorem assocLookup_append_right {c : String} {l1 l2 : List (String × Option ℚ)}
    (h : assocLookup c l1 = none) :
    assocLookup c (l1 ++ l2) = assocLookup c l2 := by
  induction l1 with
  | nil => simp
  | cons e es ih =>
    obtain ⟨k, w⟩ := e
    by_cases hk : k = c
    · simp [assocLookup, if_pos hk] at h
    · simp only [assocLookup, if_neg hk] at h ⊢
      exact ih h

/-! ## Sorted key-union lemmas -/

theorem sortDedupKeys_perm (ts : List Timestamp) :
    (sortDedupKeys ts).Perm ts.dedup :=
  List.perm_insertionSort Timestamp.le ts.dedup

theorem mem_sortDedupKeys {t : Timestamp} {ts : List Timestamp} :
    t ∈ sortDedupKeys ts ↔ t ∈ ts := by
  rw [(sortDedupKeys_perm ts).mem_iff]
  exact List.mem_dedup

theorem sortDedupKeys_nodup (ts : List Timestamp) :
    (sortDedupKeys ts).Nodup :=
  (sortDedupKeys_perm ts).nodup_iff.mpr (List.nodup_dedup ts)

/-! ## Rows keyed by timestamp -/

theorem find?_keyed_rows (keys : List Timestamp) (f : Timestamp → List (Option ℚ))
    {t : Timestamp} (ht : t ∈ keys) :
    (keys.map (fun u => Row.mk u (f u))).find? (fun r => decide (r.time = t))
      = some (Row.mk t (f t)) := by
  induction keys with
  | nil => cases ht
  | cons k ks ih =>
    by_cases hk : k = t
    · subst hk
      simp [List.map_cons, List.find?_cons_of_pos]
    · have hts : t ∈ ks := by
        rcases List.mem_cons.mp ht with h | h
        · exact absurd h.symm hk
        · exact h
      rw [List.map_cons, List.find?_cons_of_neg _ (by simp [hk]), ih hts]

theorem times_keyed_rows (keys : List Timestamp) (f : Timestamp → List (Option ℚ))
    {cols : List String} :
    (AggTable.mk cols (keys.map (fun u => Row.mk u (f u)))).times = keys := by
  show List.map Row.time (keys.map fun u => Row.mk u (f u)) = keys
  rw [List.map_map]
  have h : (Row.time ∘ fun u => Row.mk u (f u)) = id := funext fun u => rfl
  rw [h, List.map_id]

theorem cellsAt_keyed_rows (keys : List Timestamp) (f : Timestamp → List (Option ℚ))
    {cols : List String} {t : Timestamp} (ht : t ∈ keys) :
    (AggTable.mk cols (keys.map (fun u => Row.mk u (f u)))).cellsAt t = f t := by
  unfold AggTable.cellsAt
  rw [find?_keyed_rows keys f ht]

/-! ## `cellsAt` lemmas -/

theorem cellsAt_not_mem {T : AggTable} {t : Timestamp} (ht : t ∉ T.times) :
    T.cellsAt t = List.replicate T.cols.length none := by
  unfold AggTable.cellsAt
  rw [List.find?_eq_none.mpr]
  intro r hr
  simp only [decide_eq_true_eq]
  intro h
  exact ht (h ▸ List.mem_map_of_mem Row.time hr)

theorem cellsAt_length {T : AggTable}
    (h : ∀ r ∈ T.rows, r.cells.length = T.cols.length) (t : Timestamp) :
    (T.cellsAt t).length = T.cols.length := by
  unfold AggTable.cellsAt
  cases hf : T.rows.find? (fun r => decide (r.time = t)) with
  | none => simp
  | some r => exact h r (List.mem_of_find?_eq_some hf)

/-! ## `joinOuter` structure lemmas -/

theorem joinOuter_cols (l r : AggTable) :
    (joinOuter l r).cols = l.cols ++ r.cols := rfl

theorem joinOuter_times (l r : AggTable) :
    (joinOuter l r).times = sortDedupKeys (l.times ++ r.times) := by
  exact times_keyed_rows _ _

theorem mem_joinOuter_times {l r : AggTable} {t : Timestamp} :
    t ∈ (joinOuter l r).times ↔ t ∈ l.times ∨ t ∈ r.times := by
  rw [joinOuter_times, mem_sortDedupKeys, List.mem_append]

theorem joinOuter_times_nodup (l r : AggTable) :
    (joinOuter l r).times.Nodup := by
  rw [joinOuter_times]
  exact sortDedupKeys_nodup _

theorem joinOuter_cellsAt (l r : AggTable) (t : Timestamp) :
    (joinOuter l r).cellsAt t = l.cellsAt t ++ r.cellsAt t := by
  by_cases ht : t ∈ sortDedupKeys (l.times ++ r.times)
  · exact cellsAt_keyed_rows _ (fun u => l.cellsAt u ++ r.cellsAt u) ht
  · have hl : t ∉ l.times := fun h => ht (mem_sortDedupKeys.mpr (List.mem_append.mpr (Or.inl h)))
    have hr : t ∉ r.times := fun h => ht (mem_sortDedupKeys.mpr (List.mem_append.mpr (Or.inr h)))
    have hj : t ∉ (joinOuter l r).times := by rw [joinOuter_times]; exact ht
    rw [cellsAt_not_mem hj, cellsAt_not_mem hl, cellsAt_not_mem hr,
      joinOuter_cols, List.length_append, List.replicate_add]

theorem joinOuter_cells_len {l r : AggTable}
    (hl : ∀ x ∈ l.rows, x.cells.length = l.cols.length)
    (hr : ∀ x ∈ r.rows, x.cells.length = r.cols.length) :
    ∀ x ∈ (joinOuter l r).rows, x.cells.length = (joinOuter l r).cols.length := by
  intro x hx
  simp only [joinOuter, List.mem_map] at hx
  obtain ⟨t, _, rfl⟩ := hx
  simp only [List.length_append, joinOuter_cols]
  rw [cellsAt_length hl t, cellsAt_length hr t]

/-! ## `perModelTable` lemmas -/

theorem perModelTable_times (m : String) (series : List Obs) (d : String) (a b : Int) :
    (perModelTable m series d a b).times = (filterSeries d a b series).map Obs.time := by
  show List.map Row.time (List.map _ _) = _
  rw [List.map_map]
  rfl

theorem perModelTable_cells_len (m : String) (series : List Obs) (d : String) (a b : Int) :
    ∀ x ∈ (perModelTable m series d a b).rows,
      x.cells.length = (perModelTable m series d a b).cols.length := by
  intro x hx
  simp only [perModelTable, List.mem_map] at hx
  obtain ⟨o, _, rfl⟩ := hx
  rfl

theorem perModelTable_cellsAt (m : String) (series : List Obs) (d : String) (a b : Int)
    (t : Timestamp) :
    (perModelTable m series d a b).cellsAt t =
      match seriesLookup (filterSeries d a b series) t with
      | some o => [o.temp, o.precip, o.wind]
      | none => [none, none, none] := by
  have hrows : (perModelTable m series d a b).rows
      = (filterSeries d a b series).map
          (fun o => Row.mk o.time [o.temp, o.precip, o.wind]) := rfl
  unfold AggTable.cellsAt
  rw [hrows, List.find?_map]
  have hcomp : ((fun r : Row => decide (r.time = t)) ∘
        (fun o : Obs => Row.mk o.time [o.temp, o.precip, o.wind]))
      = (fun o : Obs => decide (o.time = t)) := rfl
  rw [hcomp]
  unfold seriesLookup
  cases hf : (filterSeries d a b series).find? (fun o => decide (o.time = t)) with
  | none => rfl
  | some o => rfl

theorem perModelTable_assoc (m : String) (series : List Obs) (d : String) (a b : Int)
    (t : Timestamp) :
    (perModelTable m series d a b).cols.zip ((perModelTable m series d a b).cellsAt t)
      = modelAssoc m (filterSeries d a b series) t := by
  rw [perModelTable_cellsAt]
  unfold modelAssoc
  cases seriesLookup (filterSeries d a b series) t <;> rfl

theorem joinOuter_assoc_zip {l : AggTable} (r : AggTable)
    (hl : ∀ x ∈ l.rows, x.cells.length = l.cols.length) (t : Timestamp) :
    (joinOuter l r).cols.zip ((joinOuter l r).cellsAt t)
      = l.cols.zip (l.cellsAt t) ++ r.cols.zip (r.cellsAt t) := by
  rw [joinOuter_cols, joinOuter_cellsAt, List.zip_append (cellsAt_length hl t).symm]

/-! ## Filter lemmas -/

theorem mem_filterSeries {d : String} {a b : Int} {series : List Obs} {o : Obs} :
    o ∈ filterSeries d a b series ↔
      o ∈ series ∧ o.time.date = d ∧ a ≤ (o.time.hour : Int) ∧ (o.time.hour : Int) ≤ b := by
  simp only [filterSeries, List.mem_filter, Bool.and_eq_true, decide_eq_true_eq]
  tauto

theorem filterSeries_sublist (d : String) (a b : Int) (series : List Obs) :
    (filterSeries d a b series).Sublist series :=
  (List.filter_sublist _).trans (List.filter_sublist _)

theorem filterSeries_times_nodup {d : String} {a b : Int} {series : List Obs}
    (h : (series.map Obs.time).Nodup) :
    ((filterSeries d a b series).map Obs.time).Nodup :=
  List.Nodup.sublist ((filterSeries_sublist d a b series).map Obs.time) h

/-! ## The join invariant -/

/-- What the left-to-right outer-join fold guarantees, for the per-model
tables of models `ms` with filtered series `fl`: its column names, the
distinctness of its row index, its row-cell arity, which timestamps occur,
and the named cells of every row. -/
structure JoinInv (fl : String → List Obs) (ms : List String) (T : AggTable) : Prop where
  cols_eq : T.cols = ms.flatMap colNames
  time_nodup : T.times.Nodup
  cells_len : ∀ x ∈ T.rows, x.cells.length = T.cols.length
  mem_iff : ∀ t, t ∈ T.times ↔ ∃ m ∈ ms, t ∈ (fl m).map Obs.time
  assoc_eq : ∀ t, T.cols.zip (T.cellsAt t) = ms.flatMap (fun m => modelAssoc m (fl m) t)

theorem joinInv_base {fl : String → List Obs} {m : String} {series : List Obs}
    {d : String} {a b : Int} (hf : fl m = filterSeries d a b series)
    (hn : ((fl m).map Obs.time).Nodup) :
    JoinInv fl [m] (perModelTable m series d a b) := by
  refine ⟨?_, ?_, perModelTable_cells_len m series d a b, ?_, ?_⟩
  · simp [perModelTable, colNames]
  · rw [perModelTable_times, ← hf]
    exact hn
  · intro t
    rw [perModelTable_times, ← hf]
    simp
  · intro t
    rw [perModelTable_assoc, ← hf]
    simp

theorem joinInv_step {fl : String → List Obs} {ms : List String} {T : AggTable}
    (hT : JoinInv fl ms T) {m' : String} {series : List Obs} {d : String} {a b : Int}
    (hf : fl m' = filterSeries d a b series) :
    JoinInv fl (ms ++ [m']) (joinOuter T (perModelTable m' series d a b)) := by
  refine ⟨?_, joinOuter_times_nodup _ _,
    joinOuter_cells_len hT.cells_len (perModelTable_cells_len m' series d a b), ?_, ?_⟩
  · rw [joinOuter_cols, hT.cols_eq, List.flatMap_append]
    simp [perModelTable, colNames]
  · intro t
    rw [mem_joinOuter_times, hT.mem_iff, perModelTable_times, ← hf]
    constructor
    · rintro (⟨m'', hm'', ht⟩ | ht)
      · exact ⟨m'', List.mem_append.mpr (Or.inl hm''), ht⟩
      · exact ⟨m', List.mem_append.mpr (Or.inr (List.mem_singleton.mpr rfl)), ht⟩
    · rintro ⟨m'', hm'', ht⟩
      rcases List.mem_append.mp hm'' with h | h
      · exact Or.inl ⟨m'', h, ht⟩
      · exact Or.inr (List.mem_singleton.mp h ▸ ht)
  · intro t
    rw [joinOuter_assoc_zip _ hT.cells_len, hT.assoc_eq, perModelTable_assoc, ← hf,
      List.flatMap_append]
    simp

theorem joinInv_fold {fl : String → List Obs} {g : String → List Obs}
    {d : String} {a b : Int} (tl : List String) :
    ∀ (ms : List String) (T : AggTable), JoinInv fl ms T →
      (∀ m ∈ tl, fl m = filterSeries d a b (g m)) →
      JoinInv fl (ms ++ tl)
        ((tl.map (fun m => perModelTable m (g m) d a b)).foldl joinOuter T) := by
  induction tl with
  | nil =>
    intro ms T h _
    simpa using h
  | cons m' tl ih =>
    intro ms T h hf
    have step := joinInv_step h (hf m' (by simp))
    have := ih (ms ++ [m']) _ step (fun m hm => hf m (by simp [hm]))
    simpa [List.append_assoc] using this

/-! ## Success and failure of the fetch loop -/

theorem exceptOk_seq {α β : Type} (x : α) (f : α → Except String β) :
    (Except.ok x >>= f : Except String β) = f x := rfl

theorem exceptError_seq {α β : Type} (e : String) (f : α → Except String β) :
    (Except.error e >>= f : Except String β) = Except.error e := rfl

theorem fetchAll_ok {fetch : Fetch} {g : String → List Obs} {d : String} {a b : Int} :
    ∀ {ms : List String},
      (∀ m ∈ ms, ∃ pid, AVAILABLE_MODELS.lookup m = some pid ∧ fetch pid = Except.ok (g m)) →
      fetchAll fetch d a b ms
        = Except.ok (ms.map (fun m => perModelTable m (g m) d a b)) := by
  intro ms
  induction ms with
  | nil => intro _; rfl
  | cons m ms ih =>
    intro h
    obtain ⟨pid, hpid, hok⟩ := h m (by simp)
    have hrest := ih (fun m' hm' => h m' (by simp [hm']))
    have h1 : resolveModel m = Except.ok pid := by simp [resolveModel, hpid]
    simp only [fetchAll, h1, exceptOk_seq, hok, hrest, List.map_cons]

theorem build_forecast_ok {fetch : Fetch} {g : String → List Obs} {d : String}
    {a b : Int} {m0 : String} {tl : List String}
    (h : ∀ m ∈ m0 :: tl, ∃ pid, AVAILABLE_MODELS.lookup m = some pid ∧ fetch pid = Except.ok (g m)) :
    build_forecast fetch d a b (m0 :: tl)
      = Except.ok ((tl.map (fun m => perModelTable m (g m) d a b)).foldl joinOuter
          (perModelTable m0 (g m0) d a b)) := by
  unfold build_forecast
  rw [fetchAll_ok h]
  rfl

/-- The invariant holds of the folded join of the per-model tables. -/
theorem joinInv_build {g : String → List Obs} {d : String}
    {a b : Int} {m0 : String} {tl : List String}
    (hn : ∀ m ∈ m0 :: tl, ((filterSeries d a b (g m)).map Obs.time).Nodup) :
    JoinInv (fun m => filterSeries d a b (g m)) (m0 :: tl)
      ((tl.map (fun m => perModelTable m (g m) d a b)).foldl joinOuter
        (perModelTable m0 (g m0) d a b)) := by
  have base : JoinInv (fun m => filterSeries d a b (g m)) [m0]
      (perModelTable m0 (g m0) d a b) :=
    joinInv_base rfl (hn m0 (by simp))
  have := joinInv_fold tl [m0] _ base (fun m _ => rfl)
  simpa using this

/-! ## Consequences of the invariant -/

theorem flatMap_colNames_length (ms : List String) :
    (ms.flatMap colNames).length = 3 * ms.length := by
  induction ms with
  | nil => rfl
  | cons m ms ih =>
    rw [List.flatMap_cons, List.length_append, ih, List.length_cons]
    show 3 + 3 * ms.length = 3 * (ms.length + 1)
    omega

theorem joinInv_rows_length {fl : String → List Obs} {ms : List String} {T : AggTable}
    (h : JoinInv fl ms T) :
    T.rows.length = (ms.flatMap (fun m => (fl m).map Obs.time)).dedup.length := by
  have h1 : T.rows.length = T.times.length := by
    simp [AggTable.times]
  rw [h1]
  have h2 : T.times.toFinset
      = ((ms.flatMap fun m => (fl m).map Obs.time).dedup).toFinset := by
    apply List.toFinset.ext
    intro t
    simp [List.mem_dedup, h.mem_iff t, List.mem_flatMap]
  calc T.times.length
      = T.times.toFinset.card := (List.toFinset_card_of_nodup h.time_nodup).symm
    _ = ((ms.flatMap fun m => (fl m).map Obs.time).dedup).toFinset.card := by rw [h2]
    _ = ((ms.flatMap fun m => (fl m).map Obs.time).dedup).length :=
        List.toFinset_card_of_nodup (List.nodup_dedup _)

theorem joinInv_rows_empty {fl : String → List Obs} {ms : List String} {T : AggTable}
    (h : JoinInv fl ms T) (he : ∀ m ∈ ms, fl m = []) : T.rows = [] := by
  have ht : T.times = [] := by
    cases ht : T.times with
    | nil => rfl
    | cons t ts =>
      exfalso
      have hmem := (h.mem_iff t).mp (ht ▸ List.mem_cons_self t ts)
      obtain ⟨m, hm, hmt⟩ := hmem
      rw [he m hm] at hmt
      simp at hmt
  have := congrArg List.length ht
  simp only [AggTable.times, List.length_map, List.length_nil] at this
  exact List.eq_nil_of_length_eq_zero this

/-! ## Looking a model's columns up in the assembled row -/

theorem assocLookup_modelAssoc_ne {m m' : String} (hne : m' ≠ m)
    (f : List Obs) (t : Timestamp) :
    assocLookup ("temp_" ++ m) (modelAssoc m' f t) = none ∧
    assocLookup ("precip_" ++ m) (modelAssoc m' f t) = none ∧
    assocLookup ("wind_" ++ m) (modelAssoc m' f t) = none := by
  have h1 : "temp_" ++ m' ≠ "temp_" ++ m := fun h => hne (string_append_cancel h)
  have h2 : "precip_" ++ m' ≠ "precip_" ++ m := fun h => hne (string_append_cancel h)
  have h3 : "wind_" ++ m' ≠ "wind_" ++ m := fun h => hne (string_append_cancel h)
  have h4 : "precip_" ++ m' ≠ "temp_" ++ m := fun h => temp_ne_precip m m' h.symm
  have h5 : "wind_" ++ m' ≠ "temp_" ++ m := fun h => temp_ne_wind m m' h.symm
  have h6 : "temp_" ++ m' ≠ "precip_" ++ m := temp_ne_precip m' m
  have h7 : "wind_" ++ m' ≠ "precip_" ++ m := fun h => precip_ne_wind m m' h.symm
  have h8 : "temp_" ++ m' ≠ "wind_" ++ m := temp_ne_wind m' m
  have h9 : "precip_" ++ m' ≠ "wind_" ++ m := precip_ne_wind m' m
  unfold modelAssoc
  cases seriesLookup f t <;>
    simp [assocLookup, h1, h2, h3, h4, h5, h6, h7, h8, h9]

theorem assocLookup_modelAssoc_self (m : String) (f : List Obs) (t : Timestamp) :
    assocLookup ("temp_" ++ m) (modelAssoc m f t) = some (measureAt Obs.temp f t) ∧
    assocLookup ("precip_" ++ m) (modelAssoc m f t) = some (measureAt Obs.precip f t) ∧
    assocLookup ("wind_" ++ m) (modelAssoc m f t) = some (measureAt Obs.wind f t) := by
  have h1 : "temp_" ++ m ≠ "precip_" ++ m := temp_ne_precip m m
  have h2 : "temp_" ++ m ≠ "wind_" ++ m := temp_ne_wind m m
  have h3 : "precip_" ++ m ≠ "wind_" ++ m := precip_ne_wind m m
  have h4 : "precip_" ++ m ≠ "temp_" ++ m := fun h => h1 h.symm
  have h5 : "wind_" ++ m ≠ "temp_" ++ m := fun h => h2 h.symm
  have h6 : "wind_" ++ m ≠ "precip_" ++ m := fun h => h3 h.symm
  unfold modelAssoc measureAt
  cases seriesLookup f t <;>
    simp [assocLookup, h1, h2, h3, h4, h5, h6]

theorem assocLookup_flatMap {fl : String → List Obs} {ms : List String} {m : String}
    (hm : m ∈ ms) (t : Timestamp) :
    assocLookup ("temp_" ++ m) (ms.flatMap fun m' => modelAssoc m' (fl m') t)
      = some (measureAt Obs.temp (fl m) t) ∧
    assocLookup ("precip_" ++ m) (ms.flatMap fun m' => modelAssoc m' (fl m') t)
      = some (measureAt Obs.precip (fl m) t) ∧
    assocLookup ("wind_" ++ m) (ms.flatMap fun m' => modelAssoc m' (fl m') t)
      = some (measureAt Obs.wind (fl m) t) := by
  induction ms with
  | nil => cases hm
  | cons m'' ms ih =>
    rw [List.flatMap_cons]
    by_cases h : m'' = m
    · subst h
      obtain ⟨s1, s2, s3⟩ := assocLookup_modelAssoc_self m'' (fl m'') t
      exact ⟨assocLookup_append_left s1, assocLookup_append_left s2,
        assocLookup_append_left s3⟩
    · have hm' : m ∈ ms := (List.mem_cons.mp hm).resolve_left (fun he => h he.symm)
      obtain ⟨n1, n2, n3⟩ := assocLookup_modelAssoc_ne h (fl m'') t
      obtain ⟨r1, r2, r3⟩ := ih hm'
      exact ⟨(assocLookup_append_right n1).trans r1,
        (assocLookup_append_right n2).trans r2,
        (assocLookup_append_right n3).trans r3⟩

theorem joinInv_columnValue {fl : String → List Obs} {ms : List String} {T : AggTable}
    (h : JoinInv fl ms T) {m : String} (hm : m ∈ ms) (t : Timestamp) :
    columnValue T ("temp_" ++ m) t = some (measureAt Obs.temp (fl m) t) ∧
    columnValue T ("precip_" ++ m) t = some (measureAt Obs.precip (fl m) t) ∧
    columnValue T ("wind_" ++ m) t = some (measureAt Obs.wind (fl m) t) := by
  unfold columnValue
  rw [h.assoc_eq t]
  exact assocLookup_flatMap hm t

theorem fetchAll_error {fetch : Fetch} {d : String} {a b : Int} {m : String}
    {err : String} {ms2 : List String} :
    ∀ {ms1 : List String},
      (∀ m' ∈ ms1, ∃ pid series,
        AVAILABLE_MODELS.lookup m' = some pid ∧ fetch pid = Except.ok series) →
      (∃ pid, AVAILABLE_MODELS.lookup m = some pid ∧ fetch pid = Except.error err) →
      fetchAll fetch d a b (ms1 ++ m :: ms2) = Except.error err := by
  intro ms1
  induction ms1 with
  | nil =>
    intro _ hm
    obtain ⟨pid, hpid, herr⟩ := hm
    have h1 : resolveModel m = Except.ok pid := by simp [resolveModel, hpid]
    simp only [List.nil_append, fetchAll, h1, exceptOk_seq, herr, exceptError_seq]
  | cons m' ms1 ih =>
    intro hok hm
    obtain ⟨pid', series', hpid', hser'⟩ := hok m' (by simp)
    have h1 : resolveModel m' = Except.ok pid' := by simp [resolveModel, hpid']
    have hrest := ih (fun x hx => hok x (by simp [hx])) hm
    simp only [List.cons_append, fetchAll, h1, exceptOk_seq, hser', List.append_eq,
      hrest, exceptError_seq]

theorem build_forecast_error {fetch : Fetch} {d : String} {a b : Int} {m : String}
    {err : String} {ms1 ms2 : List String}
    (hok : ∀ m' ∈ ms1, ∃ pid series,
      AVAILABLE_MODELS.lookup m' = some pid ∧ fetch pid = Except.ok series)
    (hm : ∃ pid, AVAILABLE_MODELS.lookup m = some pid ∧ fetch pid = Except.error err) :
    build_forecast fetch d a b (ms1 ++ m :: ms2) = Except.error err := by
  unfold build_forecast
  rw [fetchAll_error hok hm]
  rfl

theorem fetchAll_congr {fetch1 fetch2 : Fetch} {d : String} {a b : Int} :
    ∀ {ms : List String},
      (∀ m ∈ ms, ∀ pid, AVAILABLE_MODELS.lookup m = some pid → fetch1 pid = fetch2 pid) →
      fetchAll fetch1 d a b ms = fetchAll fetch2 d a b ms := by
  intro ms
  induction ms with
  | nil => intro _; rfl
  | cons m ms ih =>
    intro h
    have hrest := ih (fun m' hm' pid hpid => h m' (by simp [hm']) pid hpid)
    cases hl : AVAILABLE_MODELS.lookup m with
    | none =>
      have h1 : resolveModel m = Except.error ("KeyError: " ++ m) := by
        simp [resolveModel, hl]
      simp only [fetchAll, h1, exceptError_seq]
    | some pid =>
      have h1 : resolveModel m = Except.ok pid := by simp [resolveModel, hl]
      have h2 := h m (by simp) pid hl
      simp only [fetchAll, h1, exceptOk_seq, h2, hrest]

theorem build_forecast_congr {fetch1 fetch2 : Fetch} {d : String} {a b : Int}
    {ms : List String}
    (h : ∀ m ∈ ms, ∀ pid, AVAILABLE_MODELS.lookup m = some pid → fetch1 pid = fetch2 pid) :
    build_forecast fetch1 d a b ms = build_forecast fetch2 d a b ms := by
  unfold build_forecast
  rw [fetchAll_congr h]

/-! ## Reductions of the command handler -/

theorem runForecast_noModels {fetch : Fetch} {args : List String}
    {s e : Int}
    (hlat : (parseFloat? (args.getD 0 "")).isSome)
    (hlon : (parseFloat? (args.getD 1 "")).isSome)
    (hs : parseInt? (args.getD 4 "") = some s)
    (he : parseInt? (args.getD 5 "") = some e)
    (hmt : modelTokens (args.getD 6 "") = []) :
    runForecast fetch args = Except.ok [Msg.text "No valid models. Use /models"] := by
  obtain ⟨la, hla⟩ := Option.isSome_iff_exists.mp hlat
  obtain ⟨lo, hlo⟩ := Option.isSome_iff_exists.mp hlon
  simp only [runForecast, hla, hlo, hs, he, exceptOk_seq, hmt, List.isEmpty_nil,
    if_pos]

theorem runForecast_built {fetch : Fetch} {args : List String}
    {s e : Int} {ms : List String} {T : AggTable}
    (hlat : (parseFloat? (args.getD 0 "")).isSome)
    (hlon : (parseFloat? (args.getD 1 "")).isSome)
    (hs : parseInt? (args.getD 4 "") = some s)
    (he : parseInt? (args.getD 5 "") = some e)
    (hmt : modelTokens (args.getD 6 "") = ms) (hne : ms ≠ [])
    (hb : build_forecast fetch (args.getD 3 "") s e ms = Except.ok T) :
    runForecast fetch args = Except.ok
      ((if (renderText T).length > 3800 then
          [Msg.document (toCsv T) "Forecast CSV",
           Msg.text (codeBlock (renderText (headRows 20 T)))]
        else [Msg.text (codeBlock (renderText T))]) ++ [Msg.photo]) := by
  obtain ⟨la, hla⟩ := Option.isSome_iff_exists.mp hlat
  obtain ⟨lo, hlo⟩ := Option.isSome_iff_exists.mp hlon
  have hie : ms.isEmpty = false := by
    cases ms with
    | nil => exact absurd rfl hne
    | cons x xs => rfl
  simp only [runForecast, hla, hlo, hs, he, exceptOk_seq, hmt, hie,
    Bool.false_eq_true, if_neg, hb]
  rfl

theorem runForecast_buildError {fetch : Fetch} {args : List String}
    {s e : Int} {ms : List String} {err : String}
    (hlat : (parseFloat? (args.getD 0 "")).isSome)
    (hlon : (parseFloat? (args.getD 1 "")).isSome)
    (hs : parseInt? (args.getD 4 "") = some s)
    (he : parseInt? (args.getD 5 "") = some e)
    (hmt : modelTokens (args.getD 6 "") = ms) (hne : ms ≠ [])
    (hb : build_forecast fetch (args.getD 3 "") s e ms = Except.error err) :
    runForecast fetch args = Except.error err := by
  obtain ⟨la, hla⟩ := Option.isSome_iff_exists.mp hlat
  obtain ⟨lo, hlo⟩ := Option.isSome_iff_exists.mp hlon
  have hie : ms.isEmpty = false := by
    cases ms with
    | nil => exact absurd rfl hne
    | cons x xs => rfl
  simp only [runForecast, hla, hlo, hs, he, exceptOk_seq, hmt, hie,
    Bool.false_eq_true, if_neg, hb]
  rfl

theorem forecastHandler_of_ok {fetch : Fetch} {args : List String} {msgs : List Msg}
    (hlen : ¬ args.length < 7) (h : runForecast fetch args = Except.ok msgs) :
    forecastHandler fetch args = msgs := by
  unfold forecastHandler
  rw [if_neg hlen, h]

theorem forecastHandler_of_error {fetch : Fetch} {args : List String} {err : String}
    (hlen : ¬ args.length < 7) (h : runForecast fetch args = Except.error err) :
    forecastHandler fetch args = [Msg.text ("Error: " ++ err)] := by
  unfold forecastHandler
  rw [if_neg hlen, h]

/-! ## Build success with invariant -/

theorem build_forecast_inv {fetch : Fetch} {g : String → List Obs} {d : String}
    {a b : Int} {models : List String} (hne : models ≠ [])
    (hfetch : ∀ m ∈ models, ∃ pid,
      AVAILABLE_MODELS.lookup m = some pid ∧ fetch pid = Except.ok (g m))
    (hser : ∀ m ∈ models, ((g m).map Obs.time).Nodup) :
    ∃ T, build_forecast fetch d a b models = Except.ok T ∧
      JoinInv (fun m => filterSeries d a b (g m)) models T := by
  cases models with
  | nil => exact absurd rfl hne
  | cons m0 tl =>
    refine ⟨_, build_forecast_ok hfetch, joinInv_build ?_⟩
    intro m hm
    exact filterSeries_times_nodup (hser m hm)

theorem build_forecast_nil_ne_ok {fetch : Fetch} {d : String} {a b : Int}
    {T : AggTable} (hb : build_forecast fetch d a b [] = Except.ok T) : False := by
  rw [show build_forecast fetch d a b []
      = Except.error "reduce() of empty iterable with no initial value" from rfl] at hb
  exact Except.noConfusion hb

/-! ## The claims -/

/-- C1: for every non-empty list of registered models (with fetches
succeeding and series times unique, per the SeriesTable invariant),
`build_forecast` returns a table whose row count is the number of distinct
timestamps across all models' filtered series and whose column count is
`3 * len(models) + 1` (time plus three suffixed measure columns per
model). -/
theorem aggregator_shape {fetch : Fetch} {g : String → List Obs} {d : String}
    {a b : Int} {models : List String} (hne : models ≠ [])
    (hfetch : ∀ m ∈ models, ∃ pid,
      AVAILABLE_MODELS.lookup m = some pid ∧ fetch pid = Except.ok (g m))
    (hser : ∀ m ∈ models, ((g m).map Obs.time).Nodup) :
    ∃ T, build_forecast fetch d a b models = Except.ok T ∧
      T.rows.length
        = (models.flatMap (fun m => (filterSeries d a b (g m)).map Obs.time)).dedup.length ∧
      T.ncols = 3 * models.length + 1 := by
  obtain ⟨T, hb, hInv⟩ := build_forecast_inv hne hfetch hser
  refine ⟨T, hb, joinInv_rows_length hInv, ?_⟩
  unfold AggTable.ncols
  rw [hInv.cols_eq, flatMap_colNames_length]

/-- Witness for C1: two models, overlapping demo series; two distinct
timestamps survive the filter and the frame has seven columns. -/
theorem aggregator_shape_witness :
    ∃ T, build_forecast demoFetch "2025-08-19" 12 13 ["GFS", "ICON"] = Except.ok T ∧
      T.rows.length = 2 ∧ T.ncols = 7 := by
  have hfetch : ∀ m ∈ ["GFS", "ICON"], ∃ pid,
      AVAILABLE_MODELS.lookup m = some pid ∧ demoFetch pid = Except.ok (demoG m) := by
    intro m hm
    rcases List.mem_cons.mp hm with rfl | hm
    · exact ⟨"gfs_seamless", rfl, rfl⟩
    rcases List.mem_cons.mp hm with rfl | hm
    · exact ⟨"icon_seamless", rfl, rfl⟩
    cases hm
  obtain ⟨T, hb, h2, h3⟩ :=
    aggregator_shape (g := demoG) (by decide) hfetch (by decide)
  refine ⟨T, hb, ?_, ?_⟩
  · rw [h2]; decide
  · rw [h3]; decide

/-- C2: every row of a successfully built table carries a timestamp whose
`%Y-%m-%d` rendering equals the requested date and whose hour lies within
`[start, end]` inclusive — timestamps outside the window never survive the
per-model filters, whatever the fetched series contain. -/
theorem filter_correctness {fetch : Fetch} {g : String → List Obs} {d : String}
    {a b : Int} {models : List String} {T : AggTable}
    (hfetch : ∀ m ∈ models, ∃ pid,
      AVAILABLE_MODELS.lookup m = some pid ∧ fetch pid = Except.ok (g m))
    (hser : ∀ m ∈ models, ((g m).map Obs.time).Nodup)
    (hb : build_forecast fetch d a b models = Except.ok T) :
    ∀ r ∈ T.rows, r.time.date = d ∧ a ≤ (r.time.hour : Int) ∧ (r.time.hour : Int) ≤ b := by
  cases models with
  | nil => exact absurd hb build_forecast_nil_ne_ok
  | cons m0 tl =>
    obtain ⟨T', hb', hInv⟩ :=
      build_forecast_inv (List.cons_ne_nil m0 tl) hfetch hser
    rw [hb] at hb'
    have hTT : T = T' := Except.ok.inj hb'
    subst hTT
    intro r hr
    have hti : r.time ∈ T.times := List.mem_map_of_mem Row.time hr
    obtain ⟨m, _, ht⟩ := (hInv.mem_iff r.time).mp hti
    obtain ⟨o, ho, hot⟩ := List.mem_map.mp ht
    have hmem := mem_filterSeries.mp ho
    rw [← hot]
    exact ⟨hmem.2.1, hmem.2.2.1, hmem.2.2.2⟩

/-- Witness for C2: the series contain a timestamp on the following day;
the first row of the built table is still inside the requested window. -/
theorem filter_correctness_witness :
    ((tableOf (build_forecast demoFetch "2025-08-19" 12 13 ["GFS", "ICON"])).rows.getD 0
        { time := { date := "", hour := 0, minute := 0 }, cells := [] }).time.date
      = "2025-08-19" ∧
    (12 : Int) ≤ ((((tableOf (build_forecast demoFetch "2025-08-19" 12 13
        ["GFS", "ICON"])).rows.getD 0
        { time := { date := "", hour := 0, minute := 0 }, cells := [] }).time.hour : Int)) ∧
    ((((tableOf (build_forecast demoFetch "2025-08-19" 12 13 ["GFS", "ICON"])).rows.getD 0
        { time := { date := "", hour := 0, minute := 0 }, cells := [] }).time.hour : Int))
      ≤ 13 := by
  have hfetch : ∀ m ∈ ["GFS", "ICON"], ∃ pid,
      AVAILABLE_MODELS.lookup m = some pid ∧ demoFetch pid = Except.ok (demoG m) := by
    intro m hm
    rcases List.mem_cons.mp hm with rfl | hm
    · exact ⟨"gfs_seamless", rfl, rfl⟩
    rcases List.mem_cons.mp hm with rfl | hm
    · exact ⟨"icon_seamless", rfl, rfl⟩
    cases hm
  exact filter_correctness (g := demoG) hfetch (by decide) rfl _ (by decide)

/-- C10: with an inverted hour range (`start > end`) the hour filter is
unsatisfiable, every per-model filtered series is empty, and
`build_forecast` returns a header-only zero-row table rather than raising a
validation error. -/
theorem inverted_range_empty {fetch : Fetch} {g : String → List Obs} {d : String}
    {a b : Int} {models : List String} (hinv : b < a) (hne : models ≠ [])
    (hfetch : ∀ m ∈ models, ∃ pid,
      AVAILABLE_MODELS.lookup m = some pid ∧ fetch pid = Except.ok (g m)) :
    build_forecast fetch d a b models
      = Except.ok { cols := models.flatMap colNames, rows := [] } := by
  have hflt : ∀ m : String, filterSeries d a b (g m) = [] := by
    intro m
    unfold filterSeries
    apply List.eq_nil_iff_forall_not_mem.mpr
    intro o ho
    have hh := (List.mem_filter.mp ho).2
    simp only [Bool.and_eq_true, decide_eq_true_eq] at hh
    omega
  cases models with
  | nil => exact absurd rfl hne
  | cons m0 tl =>
    rw [build_forecast_ok hfetch]
    have hInv : JoinInv (fun m => filterSeries d a b (g m)) (m0 :: tl)
        ((tl.map (fun m => perModelTable m (g m) d a b)).foldl joinOuter
          (perModelTable m0 (g m0) d a b)) := by
      apply joinInv_build
      intro m _
      rw [hflt m]
      exact List.nodup_nil
    have h1 := hInv.cols_eq
    have h2 := joinInv_rows_empty hInv (fun m _ => hflt m)
    congr 1
    cases hT : (tl.map (fun m => perModelTable m (g m) d a b)).foldl joinOuter
        (perModelTable m0 (g m0) d a b) with
    | mk cols rows =>
      rw [hT] at h1 h2
      simp only [AggTable.mk.injEq]
      exact ⟨h1, h2⟩

/-- Witness for C10: hour window `[14, 12]` is inverted; the demo build
succeeds with a header-only zero-row table. -/
theorem inverted_range_empty_witness :
    build_forecast demoFetch "2025-08-19" 14 12 ["GFS"]
      = Except.ok { cols := ["GFS"].flatMap colNames, rows := [] } := by
  have hfetch : ∀ m ∈ ["GFS"], ∃ pid,
      AVAILABLE_MODELS.lookup m = some pid ∧ demoFetch pid = Except.ok (demoG m) := by
    intro m hm
    rcases List.mem_cons.mp hm with rfl | hm
    · exact ⟨"gfs_seamless", rfl, rfl⟩
    cases hm
  exact inverted_range_empty (g := demoG) (by decide) (by decide) hfetch

/-- C5 (amended): if the requested window matches no timestamp of any
model, `build_forecast` returns a header-only zero-row table, and its
`to_string` rendering is the pandas three-line empty-frame summary
(`Empty DataFrame` / `Columns: [...]` / `Index: []`), not a single header
line. -/
theorem empty_window_render {fetch : Fetch} {g : String → List Obs} {d : String}
    {a b : Int} {models : List String} {T : AggTable}
    (hfetch : ∀ m ∈ models, ∃ pid,
      AVAILABLE_MODELS.lookup m = some pid ∧ fetch pid = Except.ok (g m))
    (hempty : ∀ m ∈ models, filterSeries d a b (g m) = [])
    (hb : build_forecast fetch d a b models = Except.ok T) :
    T.rows = [] ∧
    renderText T = "Empty DataFrame\nColumns: ["
      ++ String.intercalate ", " ("time" :: T.cols) ++ "]\nIndex: []" := by
  cases models with
  | nil => exact absurd hb build_forecast_nil_ne_ok
  | cons m0 tl =>
    rw [build_forecast_ok hfetch] at hb
    have hInv : JoinInv (fun m => filterSeries d a b (g m)) (m0 :: tl)
        ((tl.map (fun m => perModelTable m (g m) d a b)).foldl joinOuter
          (perModelTable m0 (g m0) d a b)) := by
      apply joinInv_build
      intro m hm
      rw [hempty m hm]
      exact List.nodup_nil
    have hrows := joinInv_rows_empty hInv (fun m hm => hempty m hm)
    have hT := Except.ok.inj hb
    rw [hT] at hrows
    have hie : T.rows.isEmpty = true := by rw [hrows]; rfl
    refine ⟨hrows, ?_⟩
    simp only [renderText, hie, if_pos]

/-- C5 counterexample: a request whose window matches nothing yields a
zero-row table whose text rendering spans three lines (two newline
characters) — not the single header line the claim asserts. -/
theorem empty_render_counterexample :
    (tableOf (build_forecast demoFetch "2000-01-01" 0 23 ["GFS"])).rows = [] ∧
    (renderText (tableOf
        (build_forecast demoFetch "2000-01-01" 0 23 ["GFS"]))).data.count '\n' = 2 ∧
    (renderText (tableOf
        (build_forecast demoFetch "2000-01-01" 0 23 ["GFS"]))).data.count '\n' ≠ 0 := by
  refine ⟨?_, ?_, ?_⟩ <;> decide

/-- Witness for the amended C5 at the same concrete request. -/
theorem empty_window_render_witness :
    (tableOf (build_forecast demoFetch "2000-01-01" 0 23 ["GFS"])).rows = [] ∧
    renderText (tableOf (build_forecast demoFetch "2000-01-01" 0 23 ["GFS"]))
      = "Empty DataFrame\nColumns: ["
        ++ String.intercalate ", "
            ("time" :: (tableOf (build_forecast demoFetch "2000-01-01" 0 23 ["GFS"])).cols)
        ++ "]\nIndex: []" := by
  have hfetch : ∀ m ∈ ["GFS"], ∃ pid,
      AVAILABLE_MODELS.lookup m = some pid ∧ demoFetch pid = Except.ok (demoG m) := by
    intro m hm
    rcases List.mem_cons.mp hm with rfl | hm
    · exact ⟨"gfs_seamless", rfl, rfl⟩
    cases hm
  exact empty_window_render (g := demoG) hfetch (by decide) rfl

/-- C3: if the fetch of some model fails while every model before it
succeeds, the whole aggregation returns that first failure's error (no
table is produced), and the `/forecast` handler boundary reports it to the
user as a single `Error: <message>` reply (no chart message is sent). -/
theorem fetch_failure_aborts {fetch : Fetch} {ms1 ms2 : List String} {m err : String}
    (hok : ∀ m' ∈ ms1, ∃ pid series,
      AVAILABLE_MODELS.lookup m' = some pid ∧ fetch pid = Except.ok series)
    (hm : ∃ pid, AVAILABLE_MODELS.lookup m = some pid ∧ fetch pid = Except.error err) :
    (∀ (d : String) (a b : Int),
      build_forecast fetch d a b (ms1 ++ m :: ms2) = Except.error err) ∧
    (∀ (args : List String) (s e : Int), ¬ args.length < 7 →
      (parseFloat? (args.getD 0 "")).isSome →
      (parseFloat? (args.getD 1 "")).isSome →
      parseInt? (args.getD 4 "") = some s →
      parseInt? (args.getD 5 "") = some e →
      modelTokens (args.getD 6 "") = ms1 ++ m :: ms2 →
      forecastHandler fetch args = [Msg.text ("Error: " ++ err)]) := by
  constructor
  · intro d a b
    exact build_forecast_error hok hm
  · intro args s e hlen h0 h1 h4 h5 h6
    apply forecastHandler_of_error hlen
    exact runForecast_buildError h0 h1 h4 h5 h6 (by simp)
      (build_forecast_error hok hm)

/-- Witness for C3: ICON's fetch fails with a server error after GFS
succeeded; the build errors and the handler replies with the error text. -/
theorem fetch_failure_aborts_witness :
    build_forecast failFetch "2025-08-19" 12 13 (["GFS"] ++ "ICON" :: []) =
      Except.error "500 Server Error" ∧
    forecastHandler failFetch ["22.26", "69.40", "Asia/Kolkata", "2025-08-19", "12", "13", "GFS,ICON"]
      = [Msg.text ("Error: " ++ "500 Server Error")] := by
  have hok : ∀ m' ∈ ["GFS"], ∃ pid series,
      AVAILABLE_MODELS.lookup m' = some pid ∧ failFetch pid = Except.ok series := by
    intro m' hm'
    rcases List.mem_cons.mp hm' with rfl | hm'
    · exact ⟨"gfs_seamless", seriesGFS, rfl, rfl⟩
    cases hm'
  have hm : ∃ pid, AVAILABLE_MODELS.lookup "ICON" = some pid ∧
      failFetch pid = Except.error "500 Server Error" :=
    ⟨"icon_seamless", rfl, rfl⟩
  have h := @fetch_failure_aborts failFetch ["GFS"] [] "ICON" "500 Server Error" hok hm
  refine ⟨h.1 "2025-08-19" 12 13, ?_⟩
  exact h.2 ["22.26", "69.40", "Asia/Kolkata", "2025-08-19", "12", "13", "GFS,ICON"]
    12 13 (by decide) (by decide) (by decide) (by decide) (by decide) (by decide)

/-- C4: unknown model tokens are dropped before aggregation (the token
list `FAKE,GFS` reduces to exactly `["GFS"]`), and when no token remains
valid the handler replies `No valid models. Use /models` with an output
that does not depend on the fetch oracle at all — no network call is
made and the aggregator is never consulted. -/
theorem unknown_models_dropped {args : List String} {s e : Int}
    (hlen : ¬ args.length < 7)
    (hlat : (parseFloat? (args.getD 0 "")).isSome)
    (hlon : (parseFloat? (args.getD 1 "")).isSome)
    (hs : parseInt? (args.getD 4 "") = some s)
    (he : parseInt? (args.getD 5 "") = some e)
    (hmt : modelTokens (args.getD 6 "") = []) :
    modelTokens "FAKE,GFS" = ["GFS"] ∧
    ∀ fetch : Fetch, forecastHandler fetch args = [Msg.text "No valid models. Use /models"] := by
  refine ⟨by decide, fun fetch => ?_⟩
  exact forecastHandler_of_ok hlen (runForecast_noModels hlat hlon hs he hmt)

/-- Witness for C4: a seven-token command whose model list contains only
unknown tokens; every oracle yields the same `No valid models` reply. -/
theorem unknown_models_dropped_witness :
    modelTokens "FAKE,GFS" = ["GFS"] ∧
    ∀ fetch : Fetch,
      forecastHandler fetch ["0", "0", "UTC", "2025-01-01", "0", "1", "FAKE,BOGUS"]
        = [Msg.text "No valid models. Use /models"] := by
  have hlat : (parseFloat? (["0", "0", "UTC", "2025-01-01", "0", "1", "FAKE,BOGUS"].getD 0 "")).isSome := by decide
  have hlon : (parseFloat? (["0", "0", "UTC", "2025-01-01", "0", "1", "FAKE,BOGUS"].getD 1 "")).isSome := by decide
  have hs : parseInt? (["0", "0", "UTC", "2025-01-01", "0", "1", "FAKE,BOGUS"].getD 4 "")
      = some 0 := by decide
  have he : parseInt? (["0", "0", "UTC", "2025-01-01", "0", "1", "FAKE,BOGUS"].getD 5 "")
      = some 1 := by decide
  exact unknown_models_dropped (by decide) hlat hlon hs he (by decide)

/-- C9: `build_forecast` is deterministic — its output depends only on the
upstream responses for the requested models' provider ids, so two calls
with identical inputs and identical upstream responses produce identical
table content. -/
theorem deterministic_build {fetch1 fetch2 : Fetch} {d : String} {a b : Int}
    {ms : List String}
    (h : ∀ m ∈ ms, ∀ pid, AVAILABLE_MODELS.lookup m = some pid →
      fetch1 pid = fetch2 pid) :
    build_forecast fetch1 d a b ms = build_forecast fetch2 d a b ms :=
  build_forecast_congr h

/-- Witness for C9: two oracles agreeing on every registered provider id
(differing elsewhere) yield identical builds. -/
theorem deterministic_build_witness :
    build_forecast demoFetch "2025-08-19" 12 13 ["GFS", "ICON"]
      = build_forecast demoFetch2 "2025-08-19" 12 13 ["GFS", "ICON"] := by
  apply deterministic_build
  intro m hm pid hpid
  rcases List.mem_cons.mp hm with rfl | hm
  · have hp : pid = "gfs_seamless" := by
      have h2 : (some "gfs_seamless" : Option String) = some pid := by
        rw [← hpid]
        rfl
      exact (Option.some.inj h2).symm
    subst hp
    rfl
  rcases List.mem_cons.mp hm with rfl | hm
  · have hp : pid = "icon_seamless" := by
      have h2 : (some "icon_seamless" : Option String) = some pid := by
        rw [← hpid]
        rfl
      exact (Option.some.inj h2).symm
    subst hp
    rfl
  cases hm

/-- C6: joining the same model set in two different orders against the
same oracle yields the same timestamp set and the same per-model column
values at every timestamp — the tables differ only in column ordering. -/
theorem join_order_independence {fetch : Fetch} {g : String → List Obs} {d : String}
    {a b : Int} {ms1 ms2 : List String} {T1 T2 : AggTable}
    (hperm : ms1.Perm ms2) (hne : ms1 ≠ [])
    (hfetch : ∀ m ∈ ms1, ∃ pid,
      AVAILABLE_MODELS.lookup m = some pid ∧ fetch pid = Except.ok (g m))
    (hser : ∀ m ∈ ms1, ((g m).map Obs.time).Nodup)
    (hb1 : build_forecast fetch d a b ms1 = Except.ok T1)
    (hb2 : build_forecast fetch d a b ms2 = Except.ok T2) :
    (∀ t, t ∈ T1.times ↔ t ∈ T2.times) ∧
    (∀ m ∈ ms1, ∀ t,
      columnValue T1 ("temp_" ++ m) t = columnValue T2 ("temp_" ++ m) t ∧
      columnValue T1 ("precip_" ++ m) t = columnValue T2 ("precip_" ++ m) t ∧
      columnValue T1 ("wind_" ++ m) t = columnValue T2 ("wind_" ++ m) t) := by
  have hne2 : ms2 ≠ [] := by
    intro h2
    subst h2
    exact hne hperm.eq_nil
  have hfetch2 : ∀ m ∈ ms2, ∃ pid,
      AVAILABLE_MODELS.lookup m = some pid ∧ fetch pid = Except.ok (g m) :=
    fun m hm => hfetch m (hperm.mem_iff.mpr hm)
  have hser2 : ∀ m ∈ ms2, ((g m).map Obs.time).Nodup :=
    fun m hm => hser m (hperm.mem_iff.mpr hm)
  obtain ⟨T1', hb1', hInv1⟩ := build_forecast_inv hne hfetch hser
  obtain ⟨T2', hb2', hInv2⟩ := build_forecast_inv hne2 hfetch2 hser2
  rw [hb1] at hb1'
  rw [hb2] at hb2'
  have e1 : T1 = T1' := Except.ok.inj hb1'
  have e2 : T2 = T2' := Except.ok.inj hb2'
  constructor
  · intro t
    rw [e1, e2, hInv1.mem_iff, hInv2.mem_iff]
    constructor
    · rintro ⟨m, hm, ht⟩
      exact ⟨m, hperm.mem_iff.mp hm, ht⟩
    · rintro ⟨m, hm, ht⟩
      exact ⟨m, hperm.mem_iff.mpr hm, ht⟩
  · intro m hm t
    have hm2 : m ∈ ms2 := hperm.mem_iff.mp hm
    obtain ⟨c1t, c1p, c1w⟩ := joinInv_columnValue hInv1 hm t
    obtain ⟨c2t, c2p, c2w⟩ := joinInv_columnValue hInv2 hm2 t
    rw [e1, e2]
    exact ⟨c1t.trans c2t.symm, c1p.trans c2p.symm, c1w.trans c2w.symm⟩

/-- Witness for C6 at the two orderings of the demo model pair. -/
theorem join_order_independence_witness :
    (∀ t, t ∈ (tableOf (build_forecast demoFetch "2025-08-19" 12 13 ["GFS", "ICON"])).times ↔
          t ∈ (tableOf (build_forecast demoFetch "2025-08-19" 12 13 ["ICON", "GFS"])).times) ∧
    (∀ m ∈ ["GFS", "ICON"], ∀ t,
      columnValue (tableOf (build_forecast demoFetch "2025-08-19" 12 13 ["GFS", "ICON"]))
          ("temp_" ++ m) t
        = columnValue (tableOf (build_forecast demoFetch "2025-08-19" 12 13 ["ICON", "GFS"]))
          ("temp_" ++ m) t ∧
      columnValue (tableOf (build_forecast demoFetch "2025-08-19" 12 13 ["GFS", "ICON"]))
          ("precip_" ++ m) t
        = columnValue (tableOf (build_forecast demoFetch "2025-08-19" 12 13 ["ICON", "GFS"]))
          ("precip_" ++ m) t ∧
      columnValue (tableOf (build_forecast demoFetch "2025-08-19" 12 13 ["GFS", "ICON"]))
          ("wind_" ++ m) t
        = columnValue (tableOf (build_forecast demoFetch "2025-08-19" 12 13 ["ICON", "GFS"]))
          ("wind_" ++ m) t) := by
  have hfetch : ∀ m ∈ ["GFS", "ICON"], ∃ pid,
      AVAILABLE_MODELS.lookup m = some pid ∧ demoFetch pid = Except.ok (demoG m) := by
    intro m hm
    rcases List.mem_cons.mp hm with rfl | hm
    · exact ⟨"gfs_seamless", rfl, rfl⟩
    rcases List.mem_cons.mp hm with rfl | hm
    · exact ⟨"icon_seamless", rfl, rfl⟩
    cases hm
  exact @join_order_independence demoFetch demoG "2025-08-19" 12 13
    ["GFS", "ICON"] ["ICON", "GFS"]
    (tableOf (build_forecast demoFetch "2025-08-19" 12 13 ["GFS", "ICON"]))
    (tableOf (build_forecast demoFetch "2025-08-19" 12 13 ["ICON", "GFS"]))
    (by decide) (by decide) hfetch (by decide) rfl rfl

/-- C7: once a table is built, the reply shape is selected by the size
threshold on the full text rendering — above 3800 characters the handler
sends the comma-separated file (full table) plus a code-block preview of
the first 20 rows, otherwise the full table as one code-block text; the
chart photo follows in both cases. -/
theorem presenter_threshold {fetch : Fetch} {args : List String}
    {s e : Int} {ms : List String} {T : AggTable}
    (hlen : ¬ args.length < 7)
    (hlat : (parseFloat? (args.getD 0 "")).isSome)
    (hlon : (parseFloat? (args.getD 1 "")).isSome)
    (hs : parseInt? (args.getD 4 "") = some s)
    (he : parseInt? (args.getD 5 "") = some e)
    (hmt : modelTokens (args.getD 6 "") = ms) (hne : ms ≠ [])
    (hb : build_forecast fetch (args.getD 3 "") s e ms = Except.ok T) :
    ((renderText T).length > 3800 →
      forecastHandler fetch args =
        [Msg.document (toCsv T) "Forecast CSV",
         Msg.text (codeBlock (renderText (headRows 20 T))), Msg.photo]) ∧
    (¬ (renderText T).length > 3800 →
      forecastHandler fetch args = [Msg.text (codeBlock (renderText T)), Msg.photo]) := by
  have h := forecastHandler_of_ok hlen (runForecast_built hlat hlon hs he hmt hne hb)
  constructor
  · intro hgt
    rw [h, if_pos hgt]
    rfl
  · intro hle
    rw [h, if_neg hle]
    rfl

/-- Witness for C7: the demo table renders well under the threshold, so
the handler replies with the full code-block text followed by the photo. -/
theorem presenter_threshold_witness :
    forecastHandler demoFetch
        ["22.26", "69.40", "Asia/Kolkata", "2025-08-19", "12", "13", "GFS,ICON"]
      = [Msg.text (codeBlock (renderText
          (tableOf (build_forecast demoFetch "2025-08-19" 12 13 ["GFS", "ICON"])))),
         Msg.photo] := by
  have h := @presenter_threshold demoFetch
    ["22.26", "69.40", "Asia/Kolkata", "2025-08-19", "12", "13", "GFS,ICON"]
    12 13 ["GFS", "ICON"]
    (tableOf (build_forecast demoFetch "2025-08-19" 12 13 ["GFS", "ICON"]))
    (by decide) (by decide) (by decide) (by decide) (by decide) (by decide)
    (by decide) rfl
  exact h.2 (by decide)

/-- C8 (amended): fewer than seven tokens yields exactly the usage reply
with no further processing and no exception; tokens beyond the seventh are
ignored rather than rejected; and a malformed numeric argument is caught
and reported as a generic `Error:` reply — not as the usage message. -/
theorem usage_policy :
    (∀ (fetch : Fetch) (args : List String), args.length < 7 →
      forecastHandler fetch args = [Msg.text usageMsg]) ∧
    (∀ (fetch : Fetch) (args rest : List String), args.length = 7 →
      forecastHandler fetch (args ++ rest) = forecastHandler fetch args) ∧
    (∀ (fetch : Fetch) (a0 : String) (args : List String), args.length = 7 →
      args.getD 0 "" = a0 → parseFloat? a0 = none →
      forecastHandler fetch args = [Msg.text ("Error: " ++ floatErrMsg a0)]) := by
  refine ⟨?_, ?_, ?_⟩
  · intro fetch args h
    unfold forecastHandler
    rw [if_pos h]
  · intro fetch args rest hlen7
    have hlen : ¬ (args ++ rest).length < 7 := by
      rw [List.length_append]
      omega
    have hlen' : ¬ args.length < 7 := by omega
    have e0 : (args ++ rest).getD 0 "" = args.getD 0 "" :=
      List.getD_append args rest "" 0 (by omega)
    have e1 : (args ++ rest).getD 1 "" = args.getD 1 "" :=
      List.getD_append args rest "" 1 (by omega)
    have e3 : (args ++ rest).getD 3 "" = args.getD 3 "" :=
      List.getD_append args rest "" 3 (by omega)
    have e4 : (args ++ rest).getD 4 "" = args.getD 4 "" :=
      List.getD_append args rest "" 4 (by omega)
    have e5 : (args ++ rest).getD 5 "" = args.getD 5 "" :=
      List.getD_append args rest "" 5 (by omega)
    have e6 : (args ++ rest).getD 6 "" = args.getD 6 "" :=
      List.getD_append args rest "" 6 (by omega)
    unfold forecastHandler
    rw [if_neg hlen, if_neg hlen']
    have hr : runForecast fetch (args ++ rest) = runForecast fetch args := by
      simp only [runForecast, e0, e1, e3, e4, e5, e6]
    rw [hr]
  · intro fetch a0 args hlen7 ha0 hnone
    have hlen : ¬ args.length < 7 := by omega
    unfold forecastHandler
    rw [if_neg hlen]
    have hr : runForecast fetch args = Except.error (floatErrMsg a0) := by
      simp only [runForecast, ha0, hnone, exceptError_seq]
    rw [hr]

/-- C8 counterexample: a malformed first argument (`float("x")` raises) is
answered with the generic `Error:` reply, not the usage/help message the
claim requires for malformed user-correctable arguments. -/
theorem usage_counterexample :
    forecastHandler demoFetch ["x", "0", "UTC", "2025-01-01", "0", "1", "GFS"]
      ≠ [Msg.text usageMsg] ∧
    forecastHandler demoFetch ["x", "0", "UTC", "2025-01-01", "0", "1", "GFS"]
      = [Msg.text ("Error: " ++ floatErrMsg "x")] := by
  constructor <;> decide

/-- Witness for the amended C8 at concrete inputs for all three parts. -/
theorem usage_policy_witness :
    forecastHandler demoFetch ["1"] = [Msg.text usageMsg] ∧
    forecastHandler demoFetch (["0", "0", "UTC", "2025-01-01", "0", "1", "GFS"] ++ ["junk"])
      = forecastHandler demoFetch ["0", "0", "UTC", "2025-01-01", "0", "1", "GFS"] ∧
    forecastHandler demoFetch ["y", "0", "UTC", "2025-01-01", "0", "1", "GFS"]
      = [Msg.text ("Error: " ++ floatErrMsg "y")] :=
  ⟨usage_policy.1 demoFetch ["1"] (by decide),
   usage_policy.2.1 demoFetch ["0", "0", "UTC", "2025-01-01", "0", "1", "GFS"] ["junk"]
     (by decide),
   usage_policy.2.2 demoFetch "y" ["y", "0", "UTC", "2025-01-01", "0", "1", "GFS"]
     (by decide) (by decide) (by decide)⟩
